import Mathlib

/-!
Verification of the trailing-window change-and-scale calculator of the
gold-monitor dashboard (`src/app.py`).

The numeric core consists of:
* the 30-day change computation (`days_back` / `previous` / `change_pct`),
  duplicated in the core-metrics loop (app.py lines 303-313) and the
  detail-card loop (app.py lines 468-482);
* the smart-axis scaling block (app.py lines 512-526);
* the per-point chart change-rate column `变化率` (app.py lines 508-509);
* the data-fetch aggregation `fetch_data` (app.py lines 202-258).

Series values are modelled as rationals (the source uses IEEE doubles; all
arithmetic in the claims is exact on the inputs involved).  A series is the
list of its non-missing values in time order (after `dropna()`), which is
all the numeric core reads.
-/

namespace GoldMonitor

/-- The core's only error kind.  In the source, indexing an empty series
with `iloc[-1]` fails; callers guard with `len(series) > 0` (app.py line
303) or `len(series) == 0: continue` (app.py line 470). -/
inductive CoreError where
  | EmptySeries
  deriving Repr, DecidableEq

/-- Result record of the 30-day change computation, as produced by the
detail-card loop (app.py lines 473-482): `current`, `days_back`,
`previous` (absent when `days_back == 0`), `change`, `change_pct`. -/
structure ChangeResult where
  latest_value : ℚ
  lookback_count : ℕ
  reference_value : Option ℚ
  absolute_change : ℚ
  percent_change : ℚ
  deriving Repr, DecidableEq

/-- Lookback window size `days_back = min(30, len(series) - 1)`
(app.py lines 307 and 476). -/
def daysBack (s : List ℚ) : ℕ := min 30 (s.length - 1)

/-- The 30-day change computation of app.py lines 473-482:
`current = series.iloc[-1]`; `days_back = min(30, len(series)-1)`;
if `days_back > 0`: `previous = series.iloc[-days_back-1]`
(index `len - days_back - 1` from the start), `change = current - previous`,
`change_pct = change / previous * 100 if previous != 0 else 0`;
otherwise no reference and `change_pct = 0`.
An empty series is an `EmptySeries` error (the `iloc[-1]` access would fail). -/
def compute_change (s : List ℚ) : Except CoreError ChangeResult :=
  if s.length = 0 then .error .EmptySeries
  else
    let current := s.getD (s.length - 1) 0
    let db := daysBack s
    if 0 < db then
      let previous := s.getD (s.length - 1 - db) 0
      let change := current - previous
      let pct := if previous ≠ 0 then change / previous * 100 else 0
      .ok ⟨current, db, some previous, change, pct⟩
    else
      .ok ⟨current, db, none, 0, 0⟩

/-- Minimum of the displayed window, `data_min` of app.py line 513. -/
def listMin : List ℚ → ℚ
  | [] => 0
  | x :: xs => xs.foldl min x

/-- Maximum of the displayed window, `data_max` of app.py line 514. -/
def listMax : List ℚ → ℚ
  | [] => 0
  | x :: xs => xs.foldl max x

/-- The smart-axis block of app.py lines 512-526:
`data_range = data_max - data_min`;
`if data_range / data_min < 0.05` then margin `data_range * 2`;
`elif data_range / data_min < 0.15` then margin `data_range * 0.5`;
`else` `y_min = 0`, `y_max = data_max * 1.1`.
The source divisions are IEEE-754 on numpy floats: when `data_min == 0`
the ratio is `inf` (`data_range > 0`) or `nan` (`data_range == 0`), both
`< 0.05` and `< 0.15` comparisons are false, and the final branch runs
without raising; we case on `data_min = 0` explicitly because rational
division by zero would instead yield `0` and take the wrong branch. -/
def compute_axis_range (s : List ℚ) : Except CoreError (ℚ × ℚ) :=
  if s.length = 0 then .error .EmptySeries
  else
    let data_min := listMin s
    let data_max := listMax s
    let data_range := data_max - data_min
    if data_min = 0 then .ok (0, data_max * 1.1)
    else if data_range / data_min < 0.05 then
      .ok (data_min - data_range * 2, data_max + data_range * 2)
    else if data_range / data_min < 0.15 then
      .ok (data_min - data_range * 0.5, data_max + data_range * 0.5)
    else
      .ok (0, data_max * 1.1)

/-- Base value of the per-point change-rate column:
`base_value = previous if days_back > 0 else series.iloc[0]`
(app.py line 508). -/
def baseValue (s : List ℚ) : ℚ :=
  if 0 < daysBack s then s.getD (s.length - 1 - daysBack s) 0
  else s.getD 0 0

/-- Rounding to two decimals, the `.round(2)` applied to the change-rate
column.  (numpy rounds half to even while `round` rounds half away from
zero; no input of the claims lands on a tie.) -/
def round2 (x : ℚ) : ℚ := (round (x * 100) : ℤ) / 100

/-- The per-point chart change-rate column of app.py line 509:
`chart_data['变化率'] = ((chart_data['数值'] - base_value) / base_value * 100).round(2)`.
The division by `base_value` is unguarded in the source; when
`base_value == 0` every entry of the float computation is `inf`, `-inf` or
`nan`, which `none` marks here (rationals have no such values). -/
def chartRates (s : List ℚ) : Option (List ℚ) :=
  if baseValue s = 0 then none
  else some (s.map fun v => round2 ((v - baseValue s) / baseValue s * 100))

/-- Outcome of fetching one named series from a provider inside
`fetch_data` (app.py lines 217-224 and 238-245): the client call either
returns a series (possibly empty) or raises, in which case the message is
captured. -/
inductive FetchOutcome where
  | success (s : List ℚ)
  | failure (msg : String)
  deriving Repr, DecidableEq

/-- The per-series aggregation of `fetch_data` (app.py lines 202-258):
each series is fetched inside its own `try`; a successful non-empty series
is stored under its name (`if s is not None and not s.empty:
data[name] = s`), an empty result is dropped silently, and an exception
appends `f"{name}: {str(e)}"` to `errors` and moves on to the next
series.  The function returns the data mapping together with the error
list and never raises. -/
def fetch_data : List (String × FetchOutcome) → List (String × List ℚ) × List String
  | [] => ([], [])
  | (name, .success s) :: rest =>
      let r := fetch_data rest
      if s.isEmpty then r else ((name, s) :: r.1, r.2)
  | (name, .failure msg) :: rest =>
      let r := fetch_data rest
      (r.1, (name ++ ": " ++ msg) :: r.2)

deriving instance DecidableEq for Except

/-! ### Helper lemmas shared by several claims -/

/-- A non-empty series never makes `compute_change` fail. -/
lemma compute_change_ok (s : List ℚ) (h : s ≠ []) :
    ∃ r, compute_change s = .ok r := by
  have hlen : ¬s.length = 0 := by simpa using h
  by_cases hdb : 0 < daysBack s <;> simp [compute_change, hlen, hdb]

/-- A non-empty series never makes `compute_axis_range` fail. -/
lemma compute_axis_range_ok (s : List ℚ) (h : s ≠ []) :
    ∃ p, compute_axis_range s = .ok p := by
  have hlen : ¬s.length = 0 := by simpa using h
  simp only [compute_axis_range, if_neg hlen]
  split
  · exact ⟨_, rfl⟩
  · split
    · exact ⟨_, rfl⟩
    · split
      · exact ⟨_, rfl⟩
      · exact ⟨_, rfl⟩

/-! ### Claim theorems -/

/-- C1: for every series with `lookback_count > 0`, the reference value is
the element at position `count(series) - 1 - lookback_count` (0-indexed
from the start), `absolute_change = latest_value - reference_value`, and
`percent_change = absolute_change / reference_value * 100` when the
reference is nonzero; concretely, a 31-point series starting at `1900`
and ending at `2000` gives reference `1900`, absolute change `100` and
percent change `100/19 ≈ 5.263`, and reference `-5` with latest `-3`
gives absolute change `2` and percent change `-40`. -/
theorem change_reference_formula (s : List ℚ) (h : 0 < daysBack s) :
    (∃ r, compute_change s = .ok r ∧
      r.latest_value = s.getD (s.length - 1) 0 ∧
      r.lookback_count = daysBack s ∧
      r.reference_value = some (s.getD (s.length - 1 - daysBack s) 0) ∧
      r.absolute_change = r.latest_value - s.getD (s.length - 1 - daysBack s) 0 ∧
      (s.getD (s.length - 1 - daysBack s) 0 ≠ 0 →
        r.percent_change =
          r.absolute_change / s.getD (s.length - 1 - daysBack s) 0 * 100)) ∧
    compute_change (List.replicate 30 (1900:ℚ) ++ [2000]) =
      .ok ⟨2000, 30, some 1900, 100, 100/19⟩ ∧
    compute_change [(-5:ℚ), -3] = .ok ⟨-3, 1, some (-5), 2, -40⟩ := by
  have hlen : ¬s.length = 0 := by
    intro h0
    simp [daysBack, h0] at h
  refine ⟨?_, ?_, ?_⟩
  · simp only [compute_change, if_neg hlen, if_pos h]
    refine ⟨_, rfl, rfl, rfl, rfl, rfl, fun hp => ?_⟩
    dsimp only
    rw [if_pos hp]
  · norm_num [compute_change, daysBack, List.replicate]
  · norm_num [compute_change, daysBack]

/-- C1 witness: the negative-reference scenario instantiates the theorem
at the concrete series `[-5, -3]`. -/
theorem change_reference_formula_witness :
    compute_change [(-5:ℚ), -3] = .ok ⟨-3, 1, some (-5), 2, -40⟩ :=
  (change_reference_formula [(-5:ℚ), -3] (by norm_num [daysBack])).2.2

/-- C2: for every non-empty series, `lookback_count = min(30, count - 1)`:
`count ≥ 31` gives `30`, `count = k ≤ 30` gives `k - 1`, and a
single-point series gives `0` with no reference value and zero absolute
and percent change. -/
theorem lookback_count_spec (s : List ℚ) (h : s ≠ []) :
    ∃ r, compute_change s = .ok r ∧
      r.lookback_count = min 30 (s.length - 1) ∧
      (31 ≤ s.length → r.lookback_count = 30) ∧
      (s.length ≤ 30 → r.lookback_count = s.length - 1) ∧
      (s.length = 1 → r.reference_value = none ∧ r.absolute_change = 0 ∧
        r.percent_change = 0) := by
  have hlen : ¬s.length = 0 := by simpa using h
  by_cases hdb : 0 < daysBack s
  · have hdb' : 0 < min 30 (s.length - 1) := hdb
    simp only [compute_change, if_neg hlen, if_pos hdb]
    refine ⟨_, rfl, ?_, ?_, ?_, ?_⟩
    · dsimp only; unfold daysBack; rfl
    · dsimp only; unfold daysBack; omega
    · dsimp only; unfold daysBack; omega
    · intro h1
      exfalso
      omega
  · have hdb' : ¬0 < min 30 (s.length - 1) := hdb
    simp only [compute_change, if_neg hlen, if_neg hdb]
    refine ⟨_, rfl, ?_, ?_, ?_, fun _ => ⟨rfl, rfl, rfl⟩⟩
    · dsimp only; unfold daysBack; rfl
    · dsimp only; unfold daysBack; omega
    · dsimp only; unfold daysBack; omega

/-- C2 witness: a single-point series has lookback 0, no reference and
zero changes. -/
theorem lookback_count_spec_witness :
    ∃ r, compute_change [(1:ℚ)] = .ok r ∧
      r.lookback_count = min 30 ([(1:ℚ)].length - 1) ∧
      (31 ≤ [(1:ℚ)].length → r.lookback_count = 30) ∧
      ([(1:ℚ)].length ≤ 30 → r.lookback_count = [(1:ℚ)].length - 1) ∧
      ([(1:ℚ)].length = 1 → r.reference_value = none ∧ r.absolute_change = 0 ∧
        r.percent_change = 0) :=
  lookback_count_spec [(1:ℚ)] (List.cons_ne_nil _ _)

/-- C5: whenever the reference value is zero, the percent-change
computation does not fail and returns exactly `0`. -/
theorem percent_change_zero_reference (s : List ℚ) (h : s ≠ []) :
    ∃ r, compute_change s = .ok r ∧
      (r.reference_value = some 0 → r.percent_change = 0) := by
  have hlen : ¬s.length = 0 := by simpa using h
  by_cases hdb : 0 < daysBack s
  · simp only [compute_change, if_neg hlen, if_pos hdb]
    refine ⟨_, rfl, fun h0 => ?_⟩
    have h0' : s.getD (s.length - 1 - daysBack s) 0 = 0 := by
      simpa using h0
    dsimp only
    rw [if_neg (not_not_intro h0')]
  · simp only [compute_change, if_neg hlen, if_neg hdb]
    exact ⟨_, rfl, by simp⟩

/-- C5 witness: the series `[0, 5]` has reference value `0` and percent
change `0`. -/
theorem percent_change_zero_reference_witness :
    ∃ r, compute_change [(0:ℚ), 5] = .ok r ∧
      (r.reference_value = some 0 → r.percent_change = 0) :=
  percent_change_zero_reference [(0:ℚ), 5] (List.cons_ne_nil _ _)

/-- C7: `compute_change` and `compute_axis_range` are pure functions of
the series snapshot: two invocations on identical inputs yield identical
outputs (in this embedding both are Lean functions, so determinism and
independence from hidden state or call order hold definitionally). -/
theorem change_and_axis_pure :
    ∀ s : List ℚ, compute_change s = compute_change s ∧
      compute_axis_range s = compute_axis_range s :=
  fun _ => ⟨rfl, rfl⟩

/-- C9: for every non-empty series the lookback count is at most
`count - 1`, so the reference position `count - 1 - lookback_count` is a
valid index and the `iloc[-days_back-1]` access (which needs
`days_back + 1 ≤ count`) never goes out of bounds. -/
theorem lookback_index_in_bounds (s : List ℚ) (h : s ≠ []) :
    daysBack s ≤ s.length - 1 ∧ daysBack s + 1 ≤ s.length ∧
      s.length - 1 - daysBack s < s.length := by
  have hlen : s.length ≠ 0 := by simpa using h
  unfold daysBack
  omega

/-- C9 witness: bounds at the concrete two-point series `[1, 2]`. -/
theorem lookback_index_in_bounds_witness :
    daysBack [(1:ℚ), 2] ≤ [(1:ℚ), 2].length - 1 ∧
      daysBack [(1:ℚ), 2] + 1 ≤ [(1:ℚ), 2].length ∧
      [(1:ℚ), 2].length - 1 - daysBack [(1:ℚ), 2] < [(1:ℚ), 2].length :=
  lookback_index_in_bounds [(1:ℚ), 2] (List.cons_ne_nil _ _)

/-- C10: the series `[0, 1]` has base value `0` (its reference value),
the unguarded per-point change-rate column divides by zero there (no
finite rational result exists), while the zero-reference safe default
still yields `percent_change = 0` for the same series: the guard applies
only to `percent_change`. -/
theorem chart_rate_divides_by_zero :
    ([(0:ℚ), 1] ≠ []) ∧ baseValue [(0:ℚ), 1] = 0 ∧
      chartRates [(0:ℚ), 1] = none ∧
      compute_change [(0:ℚ), 1] = .ok ⟨1, 1, some 0, 1, 0⟩ := by
  refine ⟨by simp, ?_, ?_, ?_⟩
  · norm_num [baseValue, daysBack]
  · norm_num [chartRates, baseValue, daysBack]
  · norm_num [compute_change, daysBack]

/-- C3: for every non-empty series with positive minimum, the three-tier
axis policy on `ratio = data_range / data_min` holds: `ratio < 0.05`
gives `[data_min - 2*data_range, data_max + 2*data_range]`,
`0.05 ≤ ratio < 0.15` gives the half-range margins, and `ratio ≥ 0.15`
gives `[0, data_max * 1.1]`; concretely `[100, 100.1] ↦ [99.8, 100.3]`,
`[100, 108] ↦ [96, 112]` and `[50, 100] ↦ [0, 110]`. -/
theorem axis_three_tier (s : List ℚ) (h : s ≠ []) (hmin : 0 < listMin s) :
    (∃ p, compute_axis_range s = .ok p ∧
      ((listMax s - listMin s) / listMin s < 0.05 →
        p = (listMin s - 2 * (listMax s - listMin s),
             listMax s + 2 * (listMax s - listMin s))) ∧
      (0.05 ≤ (listMax s - listMin s) / listMin s ∧
          (listMax s - listMin s) / listMin s < 0.15 →
        p = (listMin s - 0.5 * (listMax s - listMin s),
             listMax s + 0.5 * (listMax s - listMin s))) ∧
      (0.15 ≤ (listMax s - listMin s) / listMin s →
        p = (0, listMax s * 1.1))) ∧
    compute_axis_range [(100:ℚ), 100.1] = .ok (99.8, 100.3) ∧
    compute_axis_range [(100:ℚ), 108] = .ok (96, 112) ∧
    compute_axis_range [(50:ℚ), 100] = .ok (0, 110) := by
  have hlen : ¬s.length = 0 := by simpa using h
  refine ⟨?_, ?_, ?_, ?_⟩
  · simp only [compute_axis_range, if_neg hlen, if_neg hmin.ne']
    by_cases h1 : (listMax s - listMin s) / listMin s < 0.05
    · rw [if_pos h1]
      refine ⟨_, rfl, fun _ => ?_, fun hc => ?_, fun hc => ?_⟩
      · simp only [Prod.mk.injEq]
        constructor <;> ring
      · exfalso; linarith [hc.1]
      · exfalso; linarith
    · rw [if_neg h1]
      by_cases h2 : (listMax s - listMin s) / listMin s < 0.15
      · rw [if_pos h2]
        refine ⟨_, rfl, fun hc => absurd hc h1, fun _ => ?_, fun hc => ?_⟩
        · simp only [Prod.mk.injEq]
          constructor <;> ring
        · exfalso; linarith
      · rw [if_neg h2]
        exact ⟨_, rfl, fun hc => absurd hc h1, fun hc => absurd hc.2 h2,
          fun _ => rfl⟩
  · norm_num [compute_axis_range, listMin, listMax]
  · norm_num [compute_axis_range, listMin, listMax]
  · norm_num [compute_axis_range, listMin, listMax]

/-- C3 witness: the wide-swing series `[50, 100]` instantiates the
theorem at a concrete input with positive minimum. -/
theorem axis_three_tier_witness :
    compute_axis_range [(50:ℚ), 100] = .ok (0, 110) :=
  (axis_three_tier [(50:ℚ), 100] (List.cons_ne_nil _ _)
    (by norm_num [listMin])).2.2.2

/-- C4 counterexample: the series `[-10, -5]` has `data_min ≤ 0`, yet the
code takes the near-flat branch (the ratio `5 / -10` is negative, hence
`< 0.05`) and returns `[-20, 5]`, not the zero-based
`[0, data_max * 1.1]` the claim asserts. -/
theorem axis_nonpositive_min_cex :
    listMin [(-10:ℚ), -5] ≤ 0 ∧
      compute_axis_range [(-10:ℚ), -5] = .ok (-20, 5) ∧
      compute_axis_range [(-10:ℚ), -5] ≠
        .ok (0, listMax [(-10:ℚ), -5] * 1.1) := by
  refine ⟨by norm_num [listMin], ?_, ?_⟩
  · norm_num [compute_axis_range, listMin, listMax]
  · norm_num [compute_axis_range, listMin, listMax]

/-- C4 amended: for every non-empty series with `data_min = 0` the axis
computation takes the zero-based branch and returns `[0, data_max * 1.1]`
without a division failure (in the source the float ratio is `inf` or
`nan`, so both near-flat comparisons are false); for `data_min < 0` the
ratio is nonpositive and the near-flat branch is taken instead. -/
theorem axis_zero_min (s : List ℚ) (h : s ≠ []) (h0 : listMin s = 0) :
    compute_axis_range s = .ok (0, listMax s * 1.1) := by
  have hlen : ¬s.length = 0 := by simpa using h
  simp only [compute_axis_range, if_neg hlen, if_pos h0]

/-- C4 witness: the series `[0, 10]` has minimum `0` and gets the
zero-based axis. -/
theorem axis_zero_min_witness :
    compute_axis_range [(0:ℚ), 10] = .ok (0, listMax [(0:ℚ), 10] * 1.1) :=
  axis_zero_min [(0:ℚ), 10] (List.cons_ne_nil _ _) (by norm_num [listMin])

/-- C6: both operations fail with `EmptySeries` on the empty series, any
error they ever produce is `EmptySeries` on the empty series (no other
error kind originates in the core), and on every non-empty series neither
operation fails. -/
theorem empty_series_only_error :
    compute_change ([] : List ℚ) = .error .EmptySeries ∧
    compute_axis_range ([] : List ℚ) = .error .EmptySeries ∧
    (∀ (s : List ℚ) (e : CoreError),
      compute_change s = .error e ∨ compute_axis_range s = .error e →
      s = [] ∧ e = .EmptySeries) ∧
    (∀ s : List ℚ, s ≠ [] →
      (∃ r, compute_change s = .ok r) ∧ (∃ p, compute_axis_range s = .ok p)) := by
  refine ⟨rfl, rfl, ?_,
    fun s hs => ⟨compute_change_ok s hs, compute_axis_range_ok s hs⟩⟩
  intro s e he
  rcases eq_or_ne s [] with rfl | hs
  · exact ⟨rfl, by cases e; rfl⟩
  · exfalso
    rcases he with he | he
    · obtain ⟨r, hr⟩ := compute_change_ok s hs
      rw [hr] at he
      exact Except.noConfusion he
    · obtain ⟨p, hp⟩ := compute_axis_range_ok s hs
      rw [hp] at he
      exact Except.noConfusion he

/-- C6 witness: the one-point series `[3]` makes both operations
succeed. -/
theorem empty_series_only_error_witness :
    (∃ r, compute_change [(3:ℚ)] = .ok r) ∧
      (∃ p, compute_axis_range [(3:ℚ)] = .ok p) :=
  empty_series_only_error.2.2.2 [(3:ℚ)] (List.cons_ne_nil _ _)

/-- If every outcome that succeeded returned an empty series, the data
mapping built by `fetch_data` is empty (and the function returns rather
than failing). -/
lemma fetch_data_no_success : ∀ results : List (String × FetchOutcome),
    (∀ p ∈ results, ∀ s, p.2 = FetchOutcome.success s → s = []) →
    (fetch_data results).1 = [] := by
  intro results
  induction results with
  | nil => intro _; rfl
  | cons hd tl ih =>
    intro hall
    have htl := ih fun p hp s hs => hall p (List.mem_cons_of_mem _ hp) s hs
    obtain ⟨name, o⟩ := hd
    cases o with
    | success s =>
      have hs : s = [] := hall (name, .success s) (List.mem_cons_self _ _) s rfl
      subst hs
      simp [fetch_data, htl]
    | failure msg =>
      simp [fetch_data, htl]

/-- A successfully fetched non-empty series ends up in the data mapping
regardless of what happened to the other series. -/
lemma fetch_data_success_mem :
    ∀ (results : List (String × FetchOutcome)) (name : String) (s : List ℚ),
    (name, FetchOutcome.success s) ∈ results → s ≠ [] →
    (name, s) ∈ (fetch_data results).1 := by
  intro results
  induction results with
  | nil => intro name s hmem _; simp at hmem
  | cons hd tl ih =>
    intro name s hmem hne
    rcases List.mem_cons.mp hmem with heq | htl
    · rw [← heq]
      rcases s with _ | ⟨a, as⟩
      · exact absurd rfl hne
      · simp [fetch_data]
    · have hin := ih name s htl hne
      obtain ⟨n, o⟩ := hd
      cases o with
      | success s' =>
        by_cases hs' : s'.isEmpty <;> simp [fetch_data, hs', hin]
      | failure msg =>
        simp [fetch_data, hin]

/-- A failed fetch contributes its formatted message to the error list
regardless of what happened to the other series. -/
lemma fetch_data_failure_mem :
    ∀ (results : List (String × FetchOutcome)) (name msg : String),
    (name, FetchOutcome.failure msg) ∈ results →
    (name ++ ": " ++ msg) ∈ (fetch_data results).2 := by
  intro results
  induction results with
  | nil => intro name msg hmem; simp at hmem
  | cons hd tl ih =>
    intro name msg hmem
    rcases List.mem_cons.mp hmem with heq | htl
    · rw [← heq]
      simp [fetch_data]
    · have hin := ih name msg htl
      obtain ⟨n, o⟩ := hd
      cases o with
      | success s' =>
        by_cases hs' : s'.isEmpty <;> simp [fetch_data, hs', hin]
      | failure msg' =>
        simp [fetch_data, hin]

/-- C8: `fetch_data` returns an empty mapping paired with the collected
human-readable error strings when no series succeeds (rather than
failing), and an individual failure never suppresses the series that did
succeed nor the messages of the other failures. -/
theorem fetch_data_error_aggregation :
    (∀ results : List (String × FetchOutcome),
      (∀ p ∈ results, ∀ s, p.2 = FetchOutcome.success s → s = []) →
      (fetch_data results).1 = []) ∧
    (∀ (results : List (String × FetchOutcome)) (name : String) (s : List ℚ),
      (name, FetchOutcome.success s) ∈ results → s ≠ [] →
      (name, s) ∈ (fetch_data results).1) ∧
    (∀ (results : List (String × FetchOutcome)) (name msg : String),
      (name, FetchOutcome.failure msg) ∈ results →
      (name ++ ": " ++ msg) ∈ (fetch_data results).2) :=
  ⟨fetch_data_no_success, fetch_data_success_mem, fetch_data_failure_mem⟩

/-- C8 witness: with one failing provider and one succeeding one, the
failure is reported and the success is kept; with only the failure, the
mapping is empty. -/
theorem fetch_data_error_aggregation_witness :
    (fetch_data [("a", FetchOutcome.failure "x")]).1 = [] ∧
      ("b", [(1:ℚ)]) ∈ (fetch_data [("a", FetchOutcome.failure "x"),
        ("b", FetchOutcome.success [1])]).1 ∧
      ("a" ++ ": " ++ "x") ∈ (fetch_data [("a", FetchOutcome.failure "x"),
        ("b", FetchOutcome.success [1])]).2 := by
  refine ⟨fetch_data_error_aggregation.1 _ ?_,
    fetch_data_error_aggregation.2.1 _ _ _
      (List.mem_cons_of_mem _ (List.mem_cons_self _ _)) (by simp),
    fetch_data_error_aggregation.2.2 _ _ _ (List.mem_cons_self _ _)⟩
  intro p hp s hs
  rcases List.mem_cons.mp hp with heq | hnil
  · rw [heq] at hs
    exact FetchOutcome.noConfusion hs
  · simp at hnil

end GoldMonitor
